import Mathlib

/-!
Verification development for the elegant-print document rendering pipeline
(`elegant_print.py`): flow packing, booklet splitting, footnote resolution,
inline conversion and the image asset pipeline.  Pure Python functions are
embedded as Lean functions; external collaborators (urllib URL resolution,
the HTTP client, the PIL image codec) are modelled as explicit function
parameters, mirroring the module boundaries of the source.
-/

/-! ## Basic string utilities shared by the pipeline -/

/-- An apostrophe character, used in LaTeX replacement strings. -/
def aposChar : Char := Char.ofNat 39

/-- ASCII whitespace as recognised by Python `\s` / `str.strip`. -/
def pyWs (c : Char) : Bool :=
  c = ' ' || c = '\t' || c = '\n' || c = '\r' || c = '\x0b' || c = '\x0c'

/-- Python `str.strip()`: drop whitespace from both ends. -/
def strip_ws (s : String) : String :=
  String.mk (((s.toList.dropWhile pyWs).reverse.dropWhile pyWs).reverse)

/-- Helper for `collapse_ws`: collapse whitespace runs to single spaces.
The flag records whether the previous character was whitespace. -/
def collapseWsAux : Bool → List Char → List Char
  | _, [] => []
  | prev, c :: rest =>
    if pyWs c then
      if prev then collapseWsAux true rest
      else ' ' :: collapseWsAux true rest
    else c :: collapseWsAux false rest

/-- `collapse_ws` from the source: `re.sub(r"\s+", " ", s or "").strip()`. -/
def collapse_ws (s : String) : String :=
  strip_ws (String.mk (collapseWsAux false s.toList))

/-- Python `str.lower()` restricted to ASCII letters (all characters the
pipeline compares are ASCII). -/
def lowerStr (s : String) : String :=
  String.mk (s.toList.map Char.toLower)

/-- Whether `pat` occurs as an initial segment of `l`. -/
def listLead : List Char → List Char → Bool
  | [], _ => true
  | _ :: _, [] => false
  | p :: ps, c :: cs => p == c && listLead ps cs

/-- Whether `pat` occurs as a contiguous sublist of `l` (Python `pat in s`). -/
def subSearch (pat : List Char) : List Char → Bool
  | [] => listLead pat []
  | c :: rest => listLead pat (c :: rest) || subSearch pat rest

/-- Python substring membership `pat in s`. -/
def contains_sub (s pat : String) : Bool :=
  subSearch pat.toList s.toList

/-- Python `str.startswith` (a kernel-computable counterpart of
`String.startsWith`). -/
def starts_with (s pre : String) : Bool :=
  listLead pre.toList s.toList

/-- Python `str.endswith`. -/
def ends_with (s suf : String) : Bool :=
  listLead suf.toList.reverse s.toList.reverse

/-- Fuel-driven replacement of every occurrence of `pat`, scanning left to
right; the fuel is the length of the scanned list, which suffices because
every step consumes at least one character. -/
def replaceFuel (pat rep : List Char) : Nat → List Char → List Char
  | _, [] => []
  | 0, l => l
  | fuel + 1, c :: rest =>
    if listLead pat (c :: rest) then
      rep ++ replaceFuel pat rep fuel ((c :: rest).drop pat.length)
    else c :: replaceFuel pat rep fuel rest

/-- Python `str.replace` for a non-empty pattern (a kernel-computable
counterpart of `String.replace`; the pipeline never replaces an empty
pattern). -/
def str_replace (s pat rep : String) : String :=
  if pat = "" then s
  else String.mk (replaceFuel pat.toList rep.toList s.toList.length s.toList)

/-- Everything before the first occurrence of `c` (Python `s.split(c, 1)[0]`). -/
def takeUntilChar (c : Char) (s : String) : String :=
  String.mk (s.toList.takeWhile (fun x => x ≠ c))

/-- Numeric value of a digit run (Python `int` on a digit string). -/
def digitsVal (cs : List Char) : Nat :=
  cs.foldl (fun a c => 10 * a + (c.toNat - '0'.toNat)) 0

/-- First maximal digit run of a character list, if any. -/
def firstNatAux : List Char → Option (List Char)
  | [] => none
  | c :: rest =>
    if c.isDigit then some (c :: rest.takeWhile Char.isDigit)
    else firstNatAux rest

/-- Python `re.search(r"\d+", s)` followed by `int`: the leftmost maximal
digit run of `s` as a number. -/
def firstNat (s : String) : Option Nat :=
  (firstNatAux s.toList).map digitsVal

/-- Attempted match of the regex `footnote(?:-anchor)?-(\d+)` anchored at the
head of `l`, including the greedy backtracking over the optional `-anchor`. -/
def footnotePatAt (l : List Char) : Option Nat :=
  let tryAnchor :=
    if listLead "footnote-anchor-".toList l then
      match (l.drop "footnote-anchor-".length).takeWhile Char.isDigit with
      | [] => none
      | d => some (digitsVal d)
    else none
  let tryPlain :=
    if listLead "footnote-".toList l then
      match (l.drop "footnote-".length).takeWhile Char.isDigit with
      | [] => none
      | d => some (digitsVal d)
    else none
  tryAnchor <|> tryPlain

/-- Leftmost-match scan for `footnote(?:-anchor)?-(\d+)`. -/
def footnotePatSearch : List Char → Option Nat
  | [] => none
  | c :: rest => footnotePatAt (c :: rest) <|> footnotePatSearch rest

/-- Python `re.search(r"footnote(?:-anchor)?-(\d+)", s)`, returning the
captured number of the leftmost match. -/
def patternFootnoteNum (s : String) : Option Nat :=
  footnotePatSearch s.toList

/-! ## Text normalisation and LaTeX escaping -/

/-- The `REPLACEMENTS` table: smart punctuation and transliteration-sensitive
letters normalised to ASCII, applied in insertion order. -/
def replacement_pairs : List (String × String) :=
  [("\u00a0", " "),
   ("\u2018", "`"),
   ("\u2019", aposChar.toString),
   ("\u201c", "``"),
   ("\u201d", aposChar.toString ++ aposChar.toString),
   ("\u2013", "--"),
   ("\u2014", "---"),
   ("\u2026", "..."),
   ("\u2212", "-"),
   ("\u02c8", aposChar.toString),
   ("\u02b2", "y"),
   ("\u0268", "y"),
   ("\u0411", "B"),
   ("\u0435", "e"),
   ("\u0441", "s"),
   ("\u044b", "y"),
   ("\u0463", "e")]

/-- `normalize_text`: sequential application of each `REPLACEMENTS` entry. -/
def normalize_text (s : String) : String :=
  replacement_pairs.foldl (fun acc p => str_replace acc p.1 p.2) s

/-- The `LATEX_SPECIALS` table as a partial character map. -/
def latex_special (c : Char) : Option String :=
  if c = '%' then some "\\%"
  else if c = '$' then some "\\$"
  else if c = '#' then some "\\#"
  else if c = '&' then some "\\&"
  else if c = '_' then some "\\_"
  else if c = '{' then some "\\\x7b"
  else if c = '}' then some "\\\x7d"
  else if c = '~' then some "\\textasciitilde\x7b\x7d"
  else if c = '^' then some "\\textasciicircum\x7b\x7d"
  else none

/-- The `UNICODE_LATEX` table as a partial character map. -/
def unicode_latex (c : Char) : Option String :=
  if c = 'é' then some ("\\" ++ aposChar.toString ++ "e")
  else if c = 'ê' then some "\\^e"
  else if c = 'ï' then some "\\\"i"
  else none

/-- `latex_escape_plain`: normalise, then escape character by character,
`UNICODE_LATEX` taking priority over `LATEX_SPECIALS`. -/
def latex_escape_plain (s : String) : String :=
  String.join ((normalize_text s).toList.map fun ch =>
    match unicode_latex ch with
    | some r => r
    | none =>
      match latex_special ch with
      | some r => r
      | none => String.singleton ch)

/-- `word_count`: number of maximal alphanumeric runs (`re.findall(r"[A-Za-z0-9]+", s)`). -/
def word_count_aux : Bool → List Char → Nat
  | _, [] => 0
  | prev, c :: rest =>
    if c.isAlphanum then
      (if prev then 0 else 1) + word_count_aux true rest
    else word_count_aux false rest

/-- `word_count` from the source. -/
def word_count (s : String) : Nat :=
  word_count_aux false s.toList

/-! ## Flow packing (`render_blocks` closure state and `flush_flow`) -/

/-- The mutable state captured by the `render_blocks` closures: emitted parts
plus the pending flow buffer with its running word and block counts. -/
structure FlowState where
  parts : List String
  flow_parts : List String
  flow_words : Nat
  flow_blocks : Nat
deriving DecidableEq, Repr

/-- The multi-column wrapper emitted around a packed prose cluster. -/
def hybrid_wrap (chunk : String) : String :=
  "\\begin\x7bhybridcols\x7d\n" ++ chunk ++ "\\end\x7bhybridcols\x7d\n\n"

/-- `push_flow`: append a rendered flow block to the pending buffer. -/
def push_flow (tex : String) (words : Nat) (s : FlowState) : FlowState :=
  if tex = "" then s
  else { s with flow_parts := s.flow_parts ++ [tex],
                flow_words := s.flow_words + words,
                flow_blocks := s.flow_blocks + 1 }

/-- `flush_flow`: no-op on an empty buffer; otherwise emit the buffered
content as one part, wrapped in `hybridcols` exactly when hybrid layout is
enabled and `(flow_blocks ≥ 2 ∧ flow_words ≥ 110) ∨ flow_words ≥ 180`. -/
def flush_flow (hybrid : Bool) (s : FlowState) : FlowState :=
  if s.flow_parts = [] then s
  else
    let chunk := String.join s.flow_parts
    { parts := s.parts ++
        [if hybrid ∧ ((2 ≤ s.flow_blocks ∧ 110 ≤ s.flow_words) ∨ 180 ≤ s.flow_words)
         then hybrid_wrap chunk else chunk],
      flow_parts := [], flow_words := 0, flow_blocks := 0 }

/-- String length of a three-part concatenation, used to separate wrapped
from unwrapped flushes. -/
theorem three_append_length (a b c : String) :
    (a ++ b ++ c).length = a.length + b.length + c.length := by
  simp [String.length_append]

/-- A hybrid-wrapped chunk is never equal to the bare chunk. -/
theorem hybrid_wrap_ne (chunk : String) : hybrid_wrap chunk ≠ chunk := by
  intro h
  have hl := congrArg String.length h
  rw [hybrid_wrap, three_append_length] at hl
  have h1 : 0 < ("\\begin\x7bhybridcols\x7d\n" : String).length := by decide
  omega

/-- C1: a flush of an empty buffer emits nothing; a flush of a non-empty
buffer clears the buffer and emits exactly one part, a multi-column
`hybridcols` region precisely when hybrid layout is enabled and
`(flow_blocks ≥ 2 ∧ flow_words ≥ 110) ∨ flow_words ≥ 180`, and the bare
single-column chunk otherwise (in particular always when hybrid is off). -/
theorem flush_flow_layout_decision (hybrid : Bool) (s : FlowState) :
    (s.flow_parts = [] → flush_flow hybrid s = s) ∧
    (s.flow_parts ≠ [] →
      (flush_flow hybrid s).flow_parts = [] ∧
      (flush_flow hybrid s).flow_words = 0 ∧
      (flush_flow hybrid s).flow_blocks = 0 ∧
      ((hybrid = true ∧ ((2 ≤ s.flow_blocks ∧ 110 ≤ s.flow_words) ∨ 180 ≤ s.flow_words)) →
        (flush_flow hybrid s).parts = s.parts ++ [hybrid_wrap (String.join s.flow_parts)]) ∧
      (¬ (hybrid = true ∧ ((2 ≤ s.flow_blocks ∧ 110 ≤ s.flow_words) ∨ 180 ≤ s.flow_words)) →
        (flush_flow hybrid s).parts = s.parts ++ [String.join s.flow_parts]) ∧
      hybrid_wrap (String.join s.flow_parts) ≠ String.join s.flow_parts) := by
  constructor
  · intro h
    simp [flush_flow, h]
  · intro h
    refine ⟨by simp [flush_flow, h], by simp [flush_flow, h], by simp [flush_flow, h], ?_, ?_, hybrid_wrap_ne _⟩
    · intro hc
      have : (hybrid ∧ ((2 ≤ s.flow_blocks ∧ 110 ≤ s.flow_words) ∨ 180 ≤ s.flow_words)) := by
        exact ⟨hc.1, hc.2⟩
      simp [flush_flow, h, this]
    · intro hc
      have : ¬ (hybrid ∧ ((2 ≤ s.flow_blocks ∧ 110 ≤ s.flow_words) ∨ 180 ≤ s.flow_words)) := by
        intro hx
        exact hc ⟨hx.1, hx.2⟩
      simp [flush_flow, h, this]

/-- Witness for C1: with hybrid enabled, a buffer holding one block of 200
words flushes as a multi-column region, and a buffer holding three blocks of
100 words total flushes as ordinary single-column flow. -/
theorem flush_flow_layout_decision_witness :
    (flush_flow true ⟨[], ["para "], 200, 1⟩).parts = [hybrid_wrap "para "] ∧
    (flush_flow true ⟨[], ["a ", "b ", "c "], 100, 3⟩).parts = ["a b c "] := by
  constructor
  · have h := ((flush_flow_layout_decision true ⟨[], ["para "], 200, 1⟩).2 (by decide)).2.2.2.1
      ⟨rfl, Or.inr (by decide)⟩
    simpa using h
  · have h := ((flush_flow_layout_decision true ⟨[], ["a ", "b ", "c "], 100, 3⟩).2 (by decide)).2.2.2.2.1
      (by decide)
    simpa using h

/-! ## Booklet splitter (`write_stapled_sections`) -/

/-- A generated booklet cover page: its 1-indexed booklet number, the total
booklet count, and the 1-indexed inclusive content-page range it announces. -/
structure BookletCover where
  booklet_idx : Nat
  booklet_total : Nat
  content_start : Nat
  content_end : Nat
deriving DecidableEq, Repr

/-- One emitted booklet section: exactly one generated cover followed by the
0-indexed content pages copied from the original document. -/
structure BookletSection where
  cover : BookletCover
  pages : List Nat
deriving DecidableEq, Repr

/-- The 0-indexed content pages of section `i`: Python
`range(i*cps, min((i+1)*cps, total_pages))`. -/
def content_pages (cps total_pages i : Nat) : List Nat :=
  List.range' (i * cps) (min ((i + 1) * cps) total_pages - i * cps)

/-- `write_stapled_sections`, with the compiled document abstracted to its
page count.  Raises the configuration error before any output when the
section size is below 2; otherwise partitions `range(total_pages)` into
cover-prefixed sections.  (`math.ceil(total_pages / cps)` is embedded as
exact ceiling division.) -/
def write_stapled_sections (total_pages : Nat) (section_max_pages : Int) :
    Except String (List BookletSection) :=
  if section_max_pages < 2 then
    .error "section_max_pages must be at least 2 to include a cover page."
  else
    let cps : Nat := (max 1 (section_max_pages - 1)).toNat
    let section_total : Nat := max 1 ((total_pages + cps - 1) / cps)
    .ok ((List.range section_total).map fun i =>
      { cover := { booklet_idx := i + 1, booklet_total := section_total,
                   content_start := i * cps + 1,
                   content_end := min ((i + 1) * cps) total_pages },
        pages := content_pages cps total_pages i })

/-- Concatenating the per-section content ranges reconstructs the original
page sequence, provided the section count covers the page count exactly. -/
theorem content_pages_partition (cps : Nat) (hc : 0 < cps) :
    ∀ (n total : Nat), total ≤ n * cps → n * cps < total + cps →
      (List.range n).flatMap (content_pages cps total) = List.range total := by
  intro n
  induction n with
  | zero =>
    intro total h1 h2
    have ht0 : total = 0 := by simpa using h1
    simp [ht0]
  | succ m ih =>
    intro total h1 h2
    have hmul : (m + 1) * cps = m * cps + cps := by ring
    have hm : m * cps < total := by omega
    by_cases hsmall : total ≤ cps
    · have hm0 : m = 0 := by
        by_contra hne
        have h1m : 1 ≤ m := Nat.one_le_iff_ne_zero.mpr hne
        have hcm : cps ≤ m * cps := by
          calc cps = 1 * cps := (Nat.one_mul cps).symm
          _ ≤ m * cps := Nat.mul_le_mul_right cps h1m
        omega
      subst hm0
      have hr1 : List.range 1 = [0] := by simp [List.range_succ]
      rw [hr1, List.flatMap_cons, List.flatMap_nil, List.append_nil]
      unfold content_pages
      have h0 : 0 * cps = 0 := by ring
      have h01 : (0 + 1) * cps = cps := by ring
      rw [h0, h01, Nat.min_eq_right hsmall, Nat.sub_zero, List.range_eq_range']
    · push_neg at hsmall
      have hct : cps ≤ total := le_of_lt hsmall
      rw [List.range_succ_eq_map, List.flatMap_cons, List.flatMap_map]
      have hshift : ∀ i, content_pages cps total (i + 1) =
          (content_pages cps (total - cps) i).map (cps + ·) := by
        intro i
        unfold content_pages
        rw [List.map_add_range']
        have hstart : cps + i * cps = (i + 1) * cps := by ring
        rw [hstart]
        congr 1
        have e1 : (i + 1 + 1) * cps = i * cps + (cps + cps) := by ring
        have e2 : (i + 1) * cps = i * cps + cps := by ring
        rw [e1, e2]
        omega
      have hfun : (fun i => content_pages cps total (i + 1)) =
          (fun i => (content_pages cps (total - cps) i).map (cps + ·)) := funext hshift
      rw [hfun, ← List.map_flatMap]
      rw [ih (total - cps) (by omega) (by omega)]
      have hfirst : content_pages cps total 0 = List.range cps := by
        unfold content_pages
        have h0 : 0 * cps = 0 := by ring
        have h01 : (0 + 1) * cps = cps := by ring
        rw [h0, h01, Nat.min_eq_left hct, Nat.sub_zero, List.range_eq_range']
      rw [hfirst, ← List.range_add]
      congr 1
      omega

/-- C2: for a total page count of at least 1 and a section size of at least 2
(with `c = S − 1` content pages per section), the splitter succeeds and
produces `⌈T / c⌉` sections; section `i` holds exactly the 0-indexed content
pages `[i·c, min((i+1)·c, T))` behind a single cover announcing the 1-indexed
range; the concatenation of all sections' pages is exactly `0, …, T−1`; and
every section except possibly the last holds exactly `c` pages. -/
theorem booklet_partition (total_pages : Nat) (section_max_pages : Int) (c : Nat)
    (hT : 1 ≤ total_pages) (hS : 2 ≤ section_max_pages)
    (hc : (c : Int) = section_max_pages - 1) :
    ∃ secs, write_stapled_sections total_pages section_max_pages = .ok secs ∧
      secs.length = (total_pages + c - 1) / c ∧
      total_pages ≤ secs.length * c ∧
      (secs.length - 1) * c < total_pages ∧
      (∀ i (h : i < secs.length),
        (secs.get ⟨i, h⟩).pages = List.range' (i * c) (min ((i + 1) * c) total_pages - i * c) ∧
        (secs.get ⟨i, h⟩).cover =
          ⟨i + 1, secs.length, i * c + 1, min ((i + 1) * c) total_pages⟩) ∧
      secs.flatMap BookletSection.pages = List.range total_pages ∧
      (∀ i (h2 : i + 1 < secs.length),
        ((secs.get ⟨i, by omega⟩).pages).length = c) := by
  have hguard : ¬ section_max_pages < 2 := by omega
  have hcpos : 0 < c := by omega
  have hmaxt : (max 1 (section_max_pages - 1)).toNat = c := by
    rw [show max 1 (section_max_pages - 1) = (c : Int) by omega, Int.toNat_natCast]
  set N : Nat := (total_pages + c - 1) / c with hN
  have hceil1 : 1 ≤ N := by
    rw [hN, Nat.le_div_iff_mul_le hcpos]
    omega
  have hmax2 : max 1 N = N := by omega
  have hdm := Nat.div_add_mod (total_pages + c - 1) c
  have hmod : (total_pages + c - 1) % c < c := Nat.mod_lt _ hcpos
  have hcomm : c * N = N * c := Nat.mul_comm c N
  rw [← hN] at hdm
  have hub : total_pages ≤ N * c := by omega
  have hsub : (N - 1) * c = N * c - 1 * c := by rw [Nat.sub_mul]
  have hlb : (N - 1) * c < total_pages := by omega
  refine ⟨(List.range N).map (fun i =>
      ⟨⟨i + 1, N, i * c + 1, min ((i + 1) * c) total_pages⟩,
        content_pages c total_pages i⟩), ?_, ?_, ?_, ?_, ?_, ?_, ?_⟩
  · simp only [write_stapled_sections, hmaxt]
    rw [if_neg hguard, ← hN, hmax2]
  · simp [hN]
  · simpa using hub
  · simpa using hlb
  · intro i h
    constructor
    · simp [content_pages]
    · simp
  · rw [List.flatMap_map]
    exact content_pages_partition c hcpos N total_pages hub (by omega)
  · intro i h2
    have hi1 : i + 1 ≤ N - 1 := by
      simp only [List.length_map, List.length_range] at h2
      omega
    have hbound : (i + 1) * c ≤ (N - 1) * c := Nat.mul_le_mul_right c hi1
    have hle : (i + 1) * c ≤ total_pages := by omega
    simp only [List.get_eq_getElem, List.getElem_map, List.getElem_range]
    rw [content_pages, List.length_range']
    have e2 : (i + 1) * c = i * c + c := by ring
    omega

/-- Witness for C2: the concrete instance of the claim, `T = 25`, `S = 6`,
`c = 5` content pages per section: five sections, each covering five content
pages, reconstructing pages `0, …, 24` in order. -/
theorem booklet_partition_witness :
    ∃ secs, write_stapled_sections 25 6 = .ok secs ∧
      secs.length = (25 + 5 - 1) / 5 ∧
      25 ≤ secs.length * 5 ∧
      (secs.length - 1) * 5 < 25 ∧
      (∀ i (h : i < secs.length),
        (secs.get ⟨i, h⟩).pages = List.range' (i * 5) (min ((i + 1) * 5) 25 - i * 5) ∧
        (secs.get ⟨i, h⟩).cover = ⟨i + 1, secs.length, i * 5 + 1, min ((i + 1) * 5) 25⟩) ∧
      secs.flatMap BookletSection.pages = List.range 25 ∧
      (∀ i (h2 : i + 1 < secs.length),
        ((secs.get ⟨i, by omega⟩).pages).length = 5) :=
  booklet_partition 25 6 5 (by decide) (by decide) (by decide)

/-- C8: a section size below 2 makes the splitter signal the configuration
error before any section is constructed, while any section size of at least 2
passes the guard and yields a section list. -/
theorem booklet_size_guard (total_pages : Nat) (section_max_pages : Int) :
    (section_max_pages < 2 →
      write_stapled_sections total_pages section_max_pages =
        .error "section_max_pages must be at least 2 to include a cover page.") ∧
    (2 ≤ section_max_pages →
      ∃ secs, write_stapled_sections total_pages section_max_pages = .ok secs) := by
  constructor
  · intro h
    rw [write_stapled_sections.eq_def, if_pos h]
  · intro h
    rw [write_stapled_sections.eq_def, if_neg (by omega)]
    exact ⟨_, rfl⟩

/-- Witness for C8: at section size 1 the splitter aborts with the
configuration error, and at section size 2 it succeeds. -/
theorem booklet_size_guard_witness :
    write_stapled_sections 10 1 =
      .error "section_max_pages must be at least 2 to include a cover page." ∧
    ∃ secs, write_stapled_sections 10 2 = .ok secs :=
  ⟨(booklet_size_guard 10 1).1 (by decide), (booklet_size_guard 10 2).2 (by decide)⟩

/-! ## Footnote resolver (`build_numbered_footnotes` and `register_ids`) -/

/-- The two footnote lookup tables, with Python-dict semantics embedded as
association lists where the most recent assignment is found first. -/
structure FootnoteTables where
  by_number : List (Nat × String)
  by_id : List (String × String)
deriving DecidableEq, Repr

/-- `register_ids` from `build_numbered_footnotes`: for a non-empty body
`text`, register it under the synthetic ids `footnote-{num}` and
`footnote-anchor-{num}` (when `num` is non-zero) and under the
whitespace-collapsed form of every non-blank id in `ids`. -/
def register_ids (t : FootnoteTables) (text : String) (num : Nat) (ids : List String) :
    FootnoteTables :=
  if text = "" then t
  else
    let t1 :=
      if num ≠ 0 then
        { t with by_id := ("footnote-anchor-" ++ toString num, text) ::
            ("footnote-" ++ toString num, text) :: t.by_id }
      else t
    ids.foldl (fun acc item =>
      let key := collapse_ws item
      if key ≠ "" then { acc with by_id := (key, text) :: acc.by_id } else acc) t1

/-- The registration step shared by both footnote encodings:
`footnotes_by_number[num] = text` followed by `register_ids(text, num, *ids)`
(executed by the source only when `num` and `text` are truthy). -/
def register_numbered_footnote (t : FootnoteTables) (num : Nat) (text : String)
    (ids : List String) : FootnoteTables :=
  register_ids { t with by_number := (num, text) :: t.by_number } text num ids

/-- The id-registration fold never touches the by-number table. -/
theorem register_fold_by_number (text : String) (ids : List String) (t : FootnoteTables) :
    (ids.foldl (fun acc item =>
      let key := collapse_ws item
      if key ≠ "" then { acc with by_id := (key, text) :: acc.by_id } else acc) t).by_number =
    t.by_number := by
  induction ids generalizing t with
  | nil => rfl
  | cons i rest ih =>
    simp only [List.foldl_cons]
    rw [ih]
    by_cases hk : collapse_ws i ≠ "" <;> simp [hk]

/-- The id-registration fold preserves existing bindings to `text`. -/
theorem register_fold_keeps (text : String) (ids : List String) (t : FootnoteTables)
    (k : String) (h : t.by_id.lookup k = some text) :
    ((ids.foldl (fun acc item =>
      let key := collapse_ws item
      if key ≠ "" then { acc with by_id := (key, text) :: acc.by_id } else acc) t).by_id).lookup k =
    some text := by
  induction ids generalizing t with
  | nil => exact h
  | cons i rest ih =>
    simp only [List.foldl_cons]
    apply ih
    dsimp only
    split
    · by_cases hki : k = collapse_ws i
      · simp [List.lookup, hki]
      · have hb : (k == collapse_ws i) = false := by simpa using hki
        simp [List.lookup, hb]
        exact h
    · exact h

/-- The id-registration fold binds every non-blank id to `text`. -/
theorem register_fold_adds (text : String) (ids : List String) (t : FootnoteTables)
    (i : String) (hm : i ∈ ids) (hk : collapse_ws i ≠ "") :
    ((ids.foldl (fun acc item =>
      let key := collapse_ws item
      if key ≠ "" then { acc with by_id := (key, text) :: acc.by_id } else acc) t).by_id).lookup
      (collapse_ws i) = some text := by
  induction ids generalizing t with
  | nil => cases hm
  | cons j rest ih =>
    simp only [List.foldl_cons]
    rcases List.mem_cons.mp hm with hj | hrest
    · subst hj
      apply register_fold_keeps
      dsimp only
      rw [if_pos hk]
      simp [List.lookup]
    · exact ih _ hrest

/-- C3: when the resolver registers a footnote body `text` under number
`num` together with the original element ids `ids`, the resulting tables map
the number, the synthetic ids `footnote-{num}` and `footnote-anchor-{num}`,
and every non-blank original id (ids are registered under their
whitespace-collapsed form, which is the id itself for any whitespace-free
HTML id) to the very same string `text`. -/
theorem footnote_alias_convergence (t : FootnoteTables) (num : Nat) (text : String)
    (ids : List String) (hn : num ≠ 0) (ht : text ≠ "") :
    ((register_numbered_footnote t num text ids).by_number).lookup num = some text ∧
    ((register_numbered_footnote t num text ids).by_id).lookup
      ("footnote-" ++ toString num) = some text ∧
    ((register_numbered_footnote t num text ids).by_id).lookup
      ("footnote-anchor-" ++ toString num) = some text ∧
    (∀ i ∈ ids, collapse_ws i ≠ "" →
      ((register_numbered_footnote t num text ids).by_id).lookup (collapse_ws i) = some text) ∧
    (∀ i ∈ ids, collapse_ws i = i → i ≠ "" →
      ((register_numbered_footnote t num text ids).by_id).lookup i = some text) := by
  have hreg : register_numbered_footnote t num text ids =
      (ids.foldl (fun acc item =>
        let key := collapse_ws item
        if key ≠ "" then { acc with by_id := (key, text) :: acc.by_id } else acc)
        { by_number := (num, text) :: t.by_number,
          by_id := ("footnote-anchor-" ++ toString num, text) ::
            ("footnote-" ++ toString num, text) :: t.by_id }) := by
    rw [register_numbered_footnote, register_ids, if_neg ht]
    simp [hn]
  refine ⟨?_, ?_, ?_, ?_, ?_⟩
  · rw [hreg, register_fold_by_number]
    simp [List.lookup]
  · rw [hreg]
    apply register_fold_keeps
    by_cases he : ("footnote-" ++ toString num) = ("footnote-anchor-" ++ toString num)
    · simp [List.lookup, he]
    · have hb : (("footnote-" ++ toString num) == ("footnote-anchor-" ++ toString num)) = false := by
        simpa using he
      simp [List.lookup, hb]
  · rw [hreg]
    apply register_fold_keeps
    simp [List.lookup]
  · intro i hm hk
    rw [hreg]
    exact register_fold_adds text ids _ i hm hk
  · intro i hm hcoll hne
    rw [hreg]
    have := register_fold_adds text ids
      { by_number := (num, text) :: t.by_number,
        by_id := ("footnote-anchor-" ++ toString num, text) ::
          ("footnote-" ++ toString num, text) :: t.by_id } i hm (by rw [hcoll]; exact hne)
    rwa [hcoll] at this

/-- Witness for C3: registering footnote 3 with body `b.` and original id
`fn3` makes every alias—number 3, `footnote-3`, `footnote-anchor-3` and
`fn3`—resolve to the identical text. -/
theorem footnote_alias_convergence_witness :
    ((register_numbered_footnote ⟨[], []⟩ 3 "b." ["fn3"]).by_number).lookup 3 = some "b." ∧
    ((register_numbered_footnote ⟨[], []⟩ 3 "b." ["fn3"]).by_id).lookup "footnote-3" = some "b." ∧
    ((register_numbered_footnote ⟨[], []⟩ 3 "b." ["fn3"]).by_id).lookup "footnote-anchor-3" =
      some "b." ∧
    ((register_numbered_footnote ⟨[], []⟩ 3 "b." ["fn3"]).by_id).lookup "fn3" = some "b." := by
  have h := footnote_alias_convergence ⟨[], []⟩ 3 "b." ["fn3"] (by decide) (by decide)
  refine ⟨h.1, ?_, ?_, ?_⟩
  · have := h.2.1
    simpa using this
  · have := h.2.2.1
    simpa using this
  · have := h.2.2.2.2 "fn3" (by simp) (by decide) (by decide)
    exact this

/-- Number derivation for a block-style (`div.footnote`) region, from
`build_numbered_footnotes`: first try the anchor fragment against
`footnote(?:-anchor)?-(\d+)`; only when that yields nothing (or zero) fall
back to the first digit run of the number link's visible text. -/
def derive_div_footnote_num (frag link_text : String) : Nat :=
  let num :=
    match patternFootnoteNum frag with
    | some n => n
    | none => 0
  if num = 0 then
    match firstNat link_text with
    | some n => n
    | none => 0
  else num

/-- Registration of a block-style footnote region (the `div.footnote` arm of
`build_numbered_footnotes`): derive the number from the anchor fragment and
the link text, then register the body when both number and text are
non-trivial. -/
def register_div_footnote (t : FootnoteTables) (frag link_text text div_id : String)
    (explicit_ids : List String) : FootnoteTables :=
  let num := derive_div_footnote_num frag link_text
  if num ≠ 0 ∧ text ≠ "" then register_numbered_footnote t num text (div_id :: explicit_ids)
  else t

/-- C4 counterexample: a number link whose anchor fragment is `footnote-2`
but whose visible text is the explicit number `3` registers the body under
the pattern-derived number 2, not under the explicit number 3 — the claim
that the explicit number wins is false on this input. -/
theorem explicit_number_loses_counterexample :
    derive_div_footnote_num "footnote-2" "3" = 2 ∧
    firstNat "3" = some 3 ∧
    ((register_div_footnote ⟨[], []⟩ "footnote-2" "3" "body." "" []).by_number).lookup 3 =
      none ∧
    ((register_div_footnote ⟨[], []⟩ "footnote-2" "3" "body." "" []).by_number).lookup 2 =
      some "body." := by
  refine ⟨by decide, by decide, ?_, ?_⟩ <;> decide

/-- C4 amended: when the anchor fragment of the number link matches
`footnote(?:-anchor)?-(\d+)` with a non-zero captured number, that
pattern-derived number wins: the footnote body is registered under it no
matter what explicit number the visible text carries; the visible-text
number is consulted only when the fragment yields no (non-zero) match. -/
theorem pattern_number_wins (frag link_text text div_id : String)
    (explicit_ids : List String) (n : Nat)
    (hpat : patternFootnoteNum frag = some n) (hn : n ≠ 0) (ht : text ≠ "") :
    derive_div_footnote_num frag link_text = n ∧
    ((register_div_footnote t frag link_text text div_id explicit_ids).by_number).lookup n =
      some text := by
  have hd : derive_div_footnote_num frag link_text = n := by
    rw [derive_div_footnote_num, hpat]
    simp [hn]
  refine ⟨hd, ?_⟩
  rw [register_div_footnote]
  simp only [hd]
  rw [if_pos ⟨hn, ht⟩]
  exact (footnote_alias_convergence t n text (div_id :: explicit_ids) hn ht).1

/-- Witness for the amended C4: fragment `footnote-anchor-7` with visible
text `9` registers the body under 7. -/
theorem pattern_number_wins_witness :
    derive_div_footnote_num "footnote-anchor-7" "9" = 7 ∧
    ((register_div_footnote ⟨[], []⟩ "footnote-anchor-7" "9" "body." "" []).by_number).lookup 7 =
      some "body." :=
  pattern_number_wins "footnote-anchor-7" "9" "body." "" [] 7 (by decide) (by decide) (by decide)

/-! ## Inline converter: footnote references and hyperlinks -/

/-- `Converter._footnote_from_text`: parse the first digit run of the visible
text; emit the registered body as a footnote when the number is known, a
superscript literal of the number otherwise, and nothing at all when the text
carries no digits. -/
def footnote_from_text (by_number : List (Nat × String)) (text : String) : String :=
  match firstNat text with
  | none => ""
  | some num =>
    match by_number.lookup num with
    | some body => "\\footnote\x7b" ++ body ++ "\x7d"
    | none => "\\textsuperscript\x7b" ++ toString num ++ "\x7d"

/-- `Converter._fragment_for_same_page`, with the cross-page URL comparison
(urllib `urlparse`/`urljoin` on a non-fragment href against `page_url`)
supplied as the external function `resolve_frag`. -/
def fragment_for_same_page (page_url : String) (resolve_frag : String → String)
    (href : String) : String :=
  let h := collapse_ws href
  if h = "" then ""
  else if starts_with h "#" then String.mk (h.toList.drop 1)
  else if page_url = "" then ""
  else resolve_frag h

/-- `Converter._footnote_from_href`: resolve the same-page fragment, then
look it up by id, then by the `footnote(?:-anchor)?-(\d+)` pattern against
the by-number table. -/
def footnote_from_href (t : FootnoteTables) (page_url : String)
    (resolve_frag : String → String) (href : String) : String :=
  let fragment := fragment_for_same_page page_url resolve_frag href
  if fragment = "" then ""
  else
    match t.by_id.lookup fragment with
    | some body => "\\footnote\x7b" ++ body ++ "\x7d"
    | none =>
      match patternFootnoteNum fragment with
      | some num =>
        match t.by_number.lookup num with
        | some body => "\\footnote\x7b" ++ body ++ "\x7d"
        | none => ""
      | none => ""

/-- Python `str.strip("[]")`: drop square brackets from both ends. -/
def strip_sq (s : String) : String :=
  let isBr := fun c => c = '[' || c = ']'
  String.mk (((s.toList.dropWhile isBr).reverse.dropWhile isBr).reverse)

/-- Python `str.isdigit` restricted to ASCII digits. -/
def is_all_digits (s : String) : Bool :=
  s ≠ "" && s.toList.all Char.isDigit

/-- `Converter._footnote_from_ref`: each contained link (given as its href
and its stripped visible text) contributes its resolved footnote body, else a
footnote by its bracket-stripped numeric label, else a superscript literal of
the label, else nothing. -/
def footnote_from_ref (t : FootnoteTables) (page_url : String)
    (resolve_frag : String → String) (links : List (String × String)) : String :=
  String.join (links.map fun al =>
    let rendered := footnote_from_href t page_url resolve_frag al.1
    if rendered ≠ "" then rendered
    else
      let label := strip_sq al.2
      match (if is_all_digits label then t.by_number.lookup (digitsVal label.toList) else none) with
      | some body => "\\footnote\x7b" ++ body ++ "\x7d"
      | none =>
        if label ≠ "" then "\\textsuperscript\x7b" ++ latex_escape_plain label ++ "\x7d"
        else "")

/-- The `sup` arm of `Converter.convert_inline`: nodes whose class list
contains `reference` go through `_footnote_from_ref` over their contained
links; all other superscripts go through `_footnote_from_text` on their
visible text. -/
def convert_sup (t : FootnoteTables) (page_url : String)
    (resolve_frag : String → String) (classes : List String)
    (links : List (String × String)) (text : String) : String :=
  if classes.contains "reference" then footnote_from_ref t page_url resolve_frag links
  else footnote_from_text t.by_number text

/-- C6 counterexample: a superscript node with the non-empty visible content
`†` (no digits, no contained links) is converted to the empty string — the
reference is dropped silently, contradicting the claim that such a node
never yields empty output. -/
theorem sup_reference_dropped_counterexample :
    ("†" : String) ≠ "" ∧
    convert_sup ⟨[], []⟩ "" (fun _ => "") [] [] "†" = "" ∧
    convert_sup ⟨[], []⟩ "" (fun _ => "") ["reference"] [] "†" = "" := by
  refine ⟨by decide, by decide, by decide⟩

/-- Any text containing a digit has a leftmost digit run. -/
theorem firstNatAux_of_digit (l : List Char) (h : l.any Char.isDigit = true) :
    ∃ d, firstNatAux l = some d := by
  induction l with
  | nil => simp at h
  | cons c rest ih =>
    by_cases hc : c.isDigit
    · exact ⟨c :: rest.takeWhile Char.isDigit, by simp [firstNatAux, hc]⟩
    · have hr : rest.any Char.isDigit = true := by
        simp only [List.any_cons] at h
        simpa [hc] using h
      obtain ⟨d, hd⟩ := ih hr
      exact ⟨d, by simpa [firstNatAux, hc] using hd⟩

/-- A footnote or superscript emission is never the empty string. -/
theorem wrapped_ne_empty (a b c : String) (ha : 0 < a.length) :
    a ++ b ++ c ≠ "" := by
  intro h
  have hl := congrArg String.length h
  rw [three_append_length, show ("" : String).length = 0 from rfl] at hl
  omega

/-- C6 amended: a superscript node without the `reference` class whose
visible text contains at least one decimal digit is never dropped: the
converter emits the registered footnote body inline when the first number of
the text is a known footnote number, and a superscript-styled literal of
that number otherwise — in either case non-empty output.  (Digit-free
superscripts, and `reference`-class nodes with no qualifying links, are
dropped as the counterexample shows.) -/
theorem sup_digit_reference_not_dropped (t : FootnoteTables) (page_url : String)
    (resolve_frag : String → String) (classes : List String)
    (links : List (String × String)) (text : String)
    (hcls : classes.contains "reference" = false)
    (hdig : text.toList.any Char.isDigit = true) :
    ∃ num, firstNat text = some num ∧
      ((∃ body, t.by_number.lookup num = some body ∧
          convert_sup t page_url resolve_frag classes links text =
            "\\footnote\x7b" ++ body ++ "\x7d") ∨
        (t.by_number.lookup num = none ∧
          convert_sup t page_url resolve_frag classes links text =
            "\\textsuperscript\x7b" ++ toString num ++ "\x7d")) ∧
      convert_sup t page_url resolve_frag classes links text ≠ "" := by
  obtain ⟨d, hd⟩ := firstNatAux_of_digit text.toList hdig
  have hfn : firstNat text = some (digitsVal d) := by
    rw [firstNat, hd]
    rfl
  have hmem : ¬ (classes.contains "reference" = true) := by
    rw [hcls]
    simp
  refine ⟨digitsVal d, hfn, ?_, ?_⟩
  · rw [convert_sup, if_neg hmem]
    cases hl : t.by_number.lookup (digitsVal d) with
    | some body =>
      refine Or.inl ⟨body, rfl, ?_⟩
      simp only [footnote_from_text, hfn, hl]
    | none =>
      refine Or.inr ⟨rfl, ?_⟩
      simp only [footnote_from_text, hfn, hl]
  · rw [convert_sup, if_neg hmem]
    cases hl : t.by_number.lookup (digitsVal d) with
    | some body =>
      simp only [footnote_from_text, hfn, hl]
      exact wrapped_ne_empty _ _ _ (by decide)
    | none =>
      simp only [footnote_from_text, hfn, hl]
      exact wrapped_ne_empty _ _ _ (by decide)

/-- Witness for the amended C6: with footnote 3 registered, the superscript
text `[3]` converts to the inline footnote body. -/
theorem sup_digit_reference_not_dropped_witness :
    ∃ num, firstNat "[3]" = some num ∧
      ((∃ body, ([(3, "b.")] : List (Nat × String)).lookup num = some body ∧
          convert_sup ⟨[(3, "b.")], []⟩ "" (fun _ => "") [] [] "[3]" =
            "\\footnote\x7b" ++ body ++ "\x7d") ∨
        (([(3, "b.")] : List (Nat × String)).lookup num = none ∧
          convert_sup ⟨[(3, "b.")], []⟩ "" (fun _ => "") [] [] "[3]" =
            "\\textsuperscript\x7b" ++ toString num ++ "\x7d")) ∧
      convert_sup ⟨[(3, "b.")], []⟩ "" (fun _ => "") [] [] "[3]" ≠ "" :=
  sup_digit_reference_not_dropped ⟨[(3, "b.")], []⟩ "" (fun _ => "") [] [] "[3]"
    (by decide) (by decide)

/-- External collaborators of the hyperlink renderer: `requests.utils.requote_uri`
and urllib `urlparse(href).netloc`. -/
structure LinkEnv where
  requote_uri : String → String
  netloc_of : String → String

/-- `href_target`: normalise the url, cut it at the first fragment marker,
requote it, percent-encode braces, and wrap it in `\detokenize`. -/
def href_target (env : LinkEnv) (url : String) : String :=
  let safe := strip_ws (normalize_text url)
  let safe := if safe ≠ "" then env.requote_uri (takeUntilChar '#' safe) else safe
  let safe := str_replace (str_replace safe "\x7b" "%7B") "\x7d" "%7D"
  "\\detokenize\x7b" ++ safe ++ "\x7d"

/-- `Converter._compact_link_label`: the link's host, lower-cased, stripped,
with a leading `www.` removed, defaulting to `link`. -/
def compact_link_label (env : LinkEnv) (href : String) : String :=
  let host := strip_ws (lowerStr (env.netloc_of href))
  let host := if starts_with host "www." then String.mk (host.toList.drop 4) else host
  if host = "" then "link" else host

/-- `Converter._render_hyperlink`: emit an `\href` whose label is the
stripped rendered text, except that an empty label, or a visible plain text
that itself starts (case-insensitively) with `http://`, `https://` or
`www.`, is replaced by the escaped compact host label. -/
def render_hyperlink (env : LinkEnv) (href rendered_text plain_text : String) : String :=
  let href_arg := href_target env href
  let label := strip_ws rendered_text
  let plain_lower := lowerStr plain_text
  let label :=
    if label = "" then latex_escape_plain (compact_link_label env href)
    else if starts_with plain_lower "http://" || starts_with plain_lower "https://"
        || starts_with plain_lower "www." then
      latex_escape_plain (compact_link_label env href)
    else label
  "\\href\x7b" ++ href_arg ++ "\x7d\x7b\\textcolor\x7bLinkColor\x7d\x7b" ++ label
    ++ "\\hspace\x7b0.32em\x7d\\linkicon\x7d\x7d"

/-- C7: whenever the visible plain text of a link begins, case-insensitively,
with `http://`, `https://` or `www.`, the emitted label is the escaped
compact host label (the link's host with a leading `www.` stripped) rather
than the raw visible text. -/
theorem link_label_compaction (env : LinkEnv) (href rendered_text plain_text : String)
    (h : starts_with (lowerStr plain_text) "http://" = true ∨
         starts_with (lowerStr plain_text) "https://" = true ∨
         starts_with (lowerStr plain_text) "www." = true) :
    render_hyperlink env href rendered_text plain_text =
      "\\href\x7b" ++ href_target env href ++ "\x7d\x7b\\textcolor\x7bLinkColor\x7d\x7b"
        ++ latex_escape_plain (compact_link_label env href)
        ++ "\\hspace\x7b0.32em\x7d\\linkicon\x7d\x7d" := by
  rw [render_hyperlink]
  have hb : (starts_with (lowerStr plain_text) "http://"
      || starts_with (lowerStr plain_text) "https://"
      || starts_with (lowerStr plain_text) "www.") = true := by
    rcases h with h | h | h <;> simp [h]
  by_cases hl : strip_ws rendered_text = ""
  · simp [hl]
  · simp [hl, hb]

/-- Witness for C7: a link whose visible text is `https://example.com/foo`
and whose host is `www.example.com` renders with the compact label
`example.com` instead of the raw URL. -/
theorem link_label_compaction_witness :
    render_hyperlink ⟨fun u => u, fun _ => "www.example.com"⟩
        "https://example.com/foo" "https://example.com/foo" "https://example.com/foo" =
      "\\href\x7b" ++ href_target ⟨fun u => u, fun _ => "www.example.com"⟩ "https://example.com/foo"
        ++ "\x7d\x7b\\textcolor\x7bLinkColor\x7d\x7b"
        ++ latex_escape_plain "example.com"
        ++ "\\hspace\x7b0.32em\x7d\\linkicon\x7d\x7d" := by
  have h := link_label_compaction ⟨fun u => u, fun _ => "www.example.com"⟩
    "https://example.com/foo" "https://example.com/foo" "https://example.com/foo"
    (Or.inr (Or.inl (by decide)))
  rw [h]
  rfl

/-! ## Image asset pipeline (`ImageStore`) -/

/-- An image element as the pipeline reads it: its source-bearing and size
attributes (absent attributes are `none`, mirroring `img.get(attr, "")`),
its class list and its alt text. -/
structure ImgNode where
  src : Option String := none
  data_src : Option String := none
  data_lazy_src : Option String := none
  data_original : Option String := none
  srcset : Option String := none
  width : Option String := none
  height : Option String := none
  classes : List String := []
  alt : Option String := none
deriving DecidableEq, Repr

/-- Python `img.get(attr, "")`. -/
def attr_or_empty : Option String → String
  | none => ""
  | some s => s

/-- `parse_dimension`: first digit run of the attribute value, else 0
(also 0 for an absent attribute). -/
def parse_dimension (value : Option String) : Nat :=
  match value with
  | none => 0
  | some v =>
    match firstNat v with
    | some n => n
    | none => 0

/-- `ImageStore._pick_source`: the first non-blank of `src`,
`data-src`, `data-lazy-src`, `data-original`, then the first candidate of
`srcset`. -/
def pick_source (img : ImgNode) : String :=
  if collapse_ws (attr_or_empty img.src) ≠ "" then collapse_ws (attr_or_empty img.src)
  else if collapse_ws (attr_or_empty img.data_src) ≠ "" then collapse_ws (attr_or_empty img.data_src)
  else if collapse_ws (attr_or_empty img.data_lazy_src) ≠ "" then
    collapse_ws (attr_or_empty img.data_lazy_src)
  else if collapse_ws (attr_or_empty img.data_original) ≠ "" then
    collapse_ws (attr_or_empty img.data_original)
  else
    let srcset := collapse_ws (attr_or_empty img.srcset)
    if srcset ≠ "" then
      strip_ws (takeUntilChar ' ' (strip_ws (takeUntilChar ',' srcset)))
    else ""

/-- `ImageStore._should_include`: reject decorative class names, avatar URLs
outside the trusted hosting exception, and images whose two declared
dimensions are both non-zero and at most 80. -/
def should_include (img : ImgNode) (src : String) : Bool :=
  let cls := lowerStr (String.intercalate " " img.classes)
  if contains_sub cls "avatar" || contains_sub cls "icon" || contains_sub cls "logo"
      || contains_sub cls "emoji" then false
  else
    let lower_src := lowerStr src
    if contains_sub lower_src "avatar"
        && !(contains_sub lower_src "substack-post-media.s3.amazonaws.com") then false
    else
      let w := parse_dimension img.width
      let h := parse_dimension img.height
      if w ≠ 0 ∧ h ≠ 0 ∧ max w h ≤ 80 then false
      else true

/-- External collaborators of the image pipeline: the page URL, urllib
`urljoin`, `Path(urlparse(u).path).suffix.lower()`, the `_download` effect
(HTTP fetch or data-URI decode; `none` is any failure) and the PIL webp
conversion (`none` when PIL is missing or conversion fails). -/
structure FetchEnv where
  page_url : String
  urljoin : String → String → String
  url_path_suffix : String → String
  download : String → Option (String × String)
  webp_decode : String → Option String

/-- `ImageStore._resolve_source`: data URIs pass through, protocol-relative
sources get `https:`, everything else is joined against the page URL. -/
def resolve_source (env : FetchEnv) (src : String) : String :=
  if starts_with src "data:image/" then src
  else if starts_with src "//" then env.urljoin env.page_url ("https:" ++ src)
  else env.urljoin env.page_url src

/-- The `CONTENT_TYPE_IMAGE_EXT` table. -/
def content_type_image_ext (ct : String) : Option String :=
  if ct = "image/jpeg" then some ".jpg"
  else if ct = "image/jpg" then some ".jpg"
  else if ct = "image/png" then some ".png"
  else if ct = "application/pdf" then some ".pdf"
  else if ct = "image/webp" then some ".webp"
  else none

/-- The `LATEX_IMAGE_EXTS` whitelist. -/
def latex_image_exts : List String := [".jpg", ".jpeg", ".png", ".pdf"]

/-- `ImageStore._infer_extension`: content type first, then the SVG XML
content-type match, then the URL path suffix, then `.jpg`. -/
def infer_extension (env : FetchEnv) (resolved ct : String) : String :=
  match content_type_image_ext ct with
  | some e => e
  | none =>
    if ends_with ct "+xml" && contains_sub ct "svg" then ".svg"
    else
      let suffix := lowerStr (env.url_path_suffix resolved)
      if [".jpeg", ".jpg", ".png", ".pdf", ".webp", ".svg"].contains suffix then suffix
      else ".jpg"

/-- `ImageStore._convert_webp`: a failed conversion yields no bytes and the
sentinel extension `.skip`. -/
def convert_webp (env : FetchEnv) (data : String) : String × String :=
  match env.webp_decode data with
  | none => ("", ".skip")
  | some png => (png, ".png")

/-- Python `f"image-{counter:03d}"` padding. -/
def pad_counter (n : Nat) : String :=
  let s := toString n
  if s.length < 3 then String.mk (List.replicate (3 - s.length) '0') ++ s else s

/-- The output-relative asset path written for the `counter`-th asset. -/
def image_filename (counter : Nat) (ext : String) : String :=
  "elegant-print-assets/image-" ++ pad_counter counter ++ ext

/-- The per-document mutable state of one `ImageStore`: the URL cache and the
filename counter. -/
structure ImageStoreState where
  cache : List (String × String)
  counter : Nat
deriving DecidableEq, Repr

/-- `ImageStore.fetch`: source selection, inclusion filter, source
resolution, cache lookup, download, extension inference, webp conversion and
asset write, returning the asset path (if any), the updated store state, and
the number of `_download` calls performed. -/
def fetch (env : FetchEnv) (img : ImgNode) (st : ImageStoreState) :
    Option String × ImageStoreState × Nat :=
  if pick_source img = "" then (none, st, 0)
  else if should_include img (pick_source img) = false then (none, st, 0)
  else if resolve_source env (pick_source img) = "" then (none, st, 0)
  else
    match st.cache.lookup (resolve_source env (pick_source img)) with
    | some rel => (some rel, st, 0)
    | none =>
      match env.download (resolve_source env (pick_source img)) with
      | none => (none, st, 1)
      | some dc =>
        let ext := infer_extension env (resolve_source env (pick_source img)) dc.2
        let fin := if ext = ".webp" then convert_webp env dc.1 else (dc.1, ext)
        if latex_image_exts.contains fin.2 = false then (none, st, 1)
        else
          (some (image_filename (st.counter + 1) fin.2),
           ⟨(resolve_source env (pick_source img), image_filename (st.counter + 1) fin.2) ::
              st.cache,
            st.counter + 1⟩, 1)

/-- `escape_url_for_url` from the source. -/
def escape_url_for_url (url : String) : String :=
  str_replace (str_replace (str_replace url "\\" "\\textbackslash\x7b\x7d") "\x7b" "\\\x7b")
    "\x7d" "\\\x7d"

/-- `render_image_block`: the `center`/`includegraphics` block with an
optional caption. -/
def render_image_block (image_path caption_tex : String) : String :=
  let block := "\\begin\x7bcenter\x7d\n\\includegraphics[width=0.96\\linewidth,keepaspectratio]\x7b"
      ++ escape_url_for_url image_path ++ "\x7d\n\\end\x7bcenter\x7d\n"
  let block := if caption_tex ≠ "" then
      block ++ "\\begin\x7bcenter\x7d\\small\\itshape " ++ caption_tex ++ "\\end\x7bcenter\x7d\n"
    else block
  block ++ "\n"

/-- `render_image_tag`: fetch through the store; on failure emit no block,
otherwise emit the image block with the caption falling back to a non-generic
alt text. -/
def render_image_tag (env : FetchEnv) (img : ImgNode) (st : ImageStoreState)
    (caption_tex : String) : String × ImageStoreState × Nat :=
  match fetch env img st with
  | (none, st2, d) => ("", st2, d)
  | (some p, st2, d) =>
    let fc := collapse_ws caption_tex
    let fc := if fc = "" then
        let alt := collapse_ws (attr_or_empty img.alt)
        if alt ≠ "" && !(["image", "photo"].contains (lowerStr alt)) then latex_escape_plain alt
        else ""
      else fc
    (render_image_block p fc, st2, d)

/-- Exhaustive case analysis of one `fetch` call: a pre-download rejection
(no source, filtered, empty resolution) with untouched state and no download;
a download or format failure with untouched state and one download; a cache
hit returning the cached path with no download; or a fresh success that
increments the counter, writes `image-{counter}` and caches the resolved
source. -/
theorem fetch_cases (env : FetchEnv) (img : ImgNode) (st : ImageStoreState) :
    (fetch env img st = (none, st, 0) ∧
      (pick_source img = "" ∨ should_include img (pick_source img) = false ∨
        resolve_source env (pick_source img) = "")) ∨
    (fetch env img st = (none, st, 1) ∧
      st.cache.lookup (resolve_source env (pick_source img)) = none) ∨
    (∃ rel, st.cache.lookup (resolve_source env (pick_source img)) = some rel ∧
      fetch env img st = (some rel, st, 0)) ∨
    (∃ e, latex_image_exts.contains e = true ∧
      st.cache.lookup (resolve_source env (pick_source img)) = none ∧
      resolve_source env (pick_source img) ≠ "" ∧
      fetch env img st =
        (some (image_filename (st.counter + 1) e),
         ⟨(resolve_source env (pick_source img), image_filename (st.counter + 1) e) :: st.cache,
          st.counter + 1⟩, 1)) := by
  unfold fetch
  split
  · next h1 => exact Or.inl ⟨rfl, Or.inl h1⟩
  · split
    · next h2 => exact Or.inl ⟨rfl, Or.inr (Or.inl h2)⟩
    · split
      · next h3 => exact Or.inl ⟨rfl, Or.inr (Or.inr h3)⟩
      · split
        · next rel heq => exact Or.inr (Or.inr (Or.inl ⟨rel, heq, rfl⟩))
        · next heq =>
          split
          · exact Or.inr (Or.inl ⟨rfl, heq⟩)
          · next dc hdl =>
            dsimp only
            generalize (if infer_extension env (resolve_source env (pick_source img)) dc.2 = ".webp"
              then convert_webp env dc.1
              else (dc.1, infer_extension env (resolve_source env (pick_source img)) dc.2)) = fin
            split
            · exact Or.inr (Or.inl ⟨rfl, heq⟩)
            · next hext =>
              exact Or.inr (Or.inr (Or.inr
                ⟨fin.2, by simpa using hext, heq, by assumption, rfl⟩))

/-- A fresh successful fetch performed exactly one download, cached the
resolved source under the returned path, and numbered the asset with the
incremented counter. -/
theorem fetch_fresh_success (env : FetchEnv) (img : ImgNode) (st : ImageStoreState)
    (p : String) (st2 : ImageStoreState) (d : Nat)
    (hfresh : st.cache.lookup (resolve_source env (pick_source img)) = none)
    (h : fetch env img st = (some p, st2, d)) :
    d = 1 ∧ resolve_source env (pick_source img) ≠ "" ∧
    st2 = ⟨(resolve_source env (pick_source img), p) :: st.cache, st.counter + 1⟩ ∧
    ∃ e, latex_image_exts.contains e = true ∧ p = image_filename (st.counter + 1) e := by
  rcases fetch_cases env img st with ⟨hf, _⟩ | ⟨hf, _⟩ | ⟨rel, hlk, hf⟩ | ⟨e, he, _, hne, hf⟩
  · rw [hf] at h
    simp at h
  · rw [hf] at h
    simp at h
  · rw [hlk] at hfresh
    simp at hfresh
  · rw [hf] at h
    simp only [Prod.mk.injEq, Option.some.injEq] at h
    obtain ⟨hp, hst, hd⟩ := h
    refine ⟨hd.symm, hne, hst.symm.trans ?_, e, he, hp.symm⟩
    rw [hp]

/-- C5 amended: two image nodes that both carry a source, both pass the
inclusion filter, and resolve to the same URL share one cached asset: if the
first fetch succeeds on a not-yet-cached URL it performs the single
underlying download, and the second fetch returns the identical asset path
from the cache with no further download and no state change. -/
theorem image_cache_dedup (env : FetchEnv) (img1 img2 : ImgNode) (st : ImageStoreState)
    (p : String) (st1 : ImageStoreState) (d : Nat)
    (h2s : pick_source img2 ≠ "")
    (h2i : should_include img2 (pick_source img2) = true)
    (h2r : resolve_source env (pick_source img2) = resolve_source env (pick_source img1))
    (hfresh : st.cache.lookup (resolve_source env (pick_source img1)) = none)
    (h1 : fetch env img1 st = (some p, st1, d)) :
    d = 1 ∧ fetch env img2 st1 = (some p, st1, 0) := by
  rcases fetch_fresh_success env img1 st p st1 d hfresh h1 with ⟨hd, hrne, hst, _⟩
  refine ⟨hd, ?_⟩
  have hi2 : ¬ should_include img2 (pick_source img2) = false := by
    rw [h2i]
    simp
  unfold fetch
  rw [if_neg h2s, if_neg hi2, h2r, if_neg hrne, hst]
  simp [List.lookup]

/-- Concrete image-pipeline fixtures used by witnesses and counterexamples. -/
def env0 : FetchEnv :=
  ⟨"http://host/", fun _ s => s, fun _ => ".png", fun _ => some ("DATA", "image/png"),
   fun _ => none⟩

/-- A fetch environment whose downloads always fail. -/
def env_fail : FetchEnv :=
  ⟨"http://host/", fun _ s => s, fun _ => ".png", fun _ => none, fun _ => none⟩

/-- A plain image node with a direct source. -/
def img_plain : ImgNode := { src := some "http://host/y.png" }

/-- The same source carried by a lazy-load attribute. -/
def img_lazy : ImgNode := { data_src := some "http://host/y.png" }

/-- The same source on a node with a decorative class. -/
def img_icon : ImgNode := { src := some "http://host/y.png", classes := ["icon"] }

/-- A node declaring zero width and height. -/
def img_zero : ImgNode :=
  { src := some "http://host/y.png", width := some "0", height := some "0" }

/-- A node declaring small (icon-sized) dimensions. -/
def img_small : ImgNode :=
  { src := some "http://host/y.png", width := some "64", height := some "64px" }

/-- C5 counterexample: the claim quantifies over every pair of nodes whose
sources resolve to the same URL, but a second node carrying a decorative
class is rejected by the inclusion filter before the cache is consulted: its
fetch returns no asset path instead of the first node's cached path. -/
theorem image_cache_claim_counterexample :
    resolve_source env0 (pick_source img_icon) = resolve_source env0 (pick_source img_plain) ∧
    fetch env0 img_plain ⟨[], 0⟩ =
      (some "elegant-print-assets/image-001.png",
       ⟨[("http://host/y.png", "elegant-print-assets/image-001.png")], 1⟩, 1) ∧
    fetch env0 img_icon
        ⟨[("http://host/y.png", "elegant-print-assets/image-001.png")], 1⟩ =
      (none, ⟨[("http://host/y.png", "elegant-print-assets/image-001.png")], 1⟩, 0) :=
  ⟨rfl, rfl, rfl⟩

/-- Witness for the amended C5: the direct-source node downloads once; the
lazy-load node resolving to the same URL is answered from the cache with the
identical path and no download. -/
theorem image_cache_dedup_witness :
    (1 : Nat) = 1 ∧
    fetch env0 img_lazy ⟨[("http://host/y.png", "elegant-print-assets/image-001.png")], 1⟩ =
      (some "elegant-print-assets/image-001.png",
       ⟨[("http://host/y.png", "elegant-print-assets/image-001.png")], 1⟩, 0) :=
  image_cache_dedup env0 img_plain img_lazy ⟨[], 0⟩ "elegant-print-assets/image-001.png"
    ⟨[("http://host/y.png", "elegant-print-assets/image-001.png")], 1⟩ 1
    (by decide) (by decide) rfl rfl rfl

/-- C9 amended: an image whose declared width and height both parse to a
non-zero dimension of at most 80 is rejected by the inclusion filter
whatever its source, its fetch returns no asset path and leaves the store
untouched, and no Image block is emitted for it. -/
theorem small_icon_filter (img : ImgNode)
    (hw : parse_dimension img.width ≠ 0) (hh : parse_dimension img.height ≠ 0)
    (hw80 : parse_dimension img.width ≤ 80) (hh80 : parse_dimension img.height ≤ 80) :
    (∀ src, should_include img src = false) ∧
    (∀ env st, fetch env img st = (none, st, 0)) ∧
    (∀ env st caption, render_image_tag env img st caption = ("", st, 0)) := by
  have hsi : ∀ src, should_include img src = false := by
    intro src
    rw [should_include]
    dsimp only
    split
    · rfl
    · split
      · rfl
      · rw [if_pos ⟨hw, hh, Nat.max_le.mpr ⟨hw80, hh80⟩⟩]
  have hfe : ∀ env st, fetch env img st = (none, st, 0) := by
    intro env st
    unfold fetch
    by_cases h1 : pick_source img = ""
    · rw [if_pos h1]
    · rw [if_neg h1, if_pos (hsi _)]
  refine ⟨hsi, hfe, ?_⟩
  intro env st caption
  rw [render_image_tag, hfe env st]

/-- Witness for the amended C9: a 64-by-64 image node is filtered out; its
fetch yields no path and no block is emitted. -/
theorem small_icon_filter_witness :
    should_include img_small (pick_source img_small) = false ∧
    fetch env0 img_small ⟨[], 0⟩ = (none, ⟨[], 0⟩, 0) ∧
    render_image_tag env0 img_small ⟨[], 0⟩ "" = ("", ⟨[], 0⟩, 0) := by
  have h := small_icon_filter img_small (by decide) (by decide) (by decide) (by decide)
  exact ⟨h.1 _, h.2.1 env0 ⟨[], 0⟩, h.2.2 env0 ⟨[], 0⟩ ""⟩

/-- C9 counterexample: a node whose declared width and height are the
present attribute value `0` (both at most 80, no trusted-exception marker)
is not rejected: Python's truthiness test `if w and h` skips the small-icon
branch for zero dimensions, so the fetch succeeds and an Image block is
emitted, contradicting the claim as stated. -/
theorem small_icon_filter_counterexample :
    img_zero.width = some "0" ∧ img_zero.height = some "0" ∧
    parse_dimension img_zero.width ≤ 80 ∧ parse_dimension img_zero.height ≤ 80 ∧
    should_include img_zero (pick_source img_zero) = true ∧
    fetch env0 img_zero ⟨[], 0⟩ =
      (some "elegant-print-assets/image-001.png",
       ⟨[("http://host/y.png", "elegant-print-assets/image-001.png")], 1⟩, 1) :=
  ⟨rfl, rfl, by decide, by decide, rfl, rfl⟩

/-- C10: failed fetches are isolated.  First, any fetch returning no path
leaves the store state (cache and counter) exactly as it was.  Second, a
successful fetch of a not-yet-cached URL increments the counter by one and
names the asset `image-{new counter}`, so successive successful writes are
numbered consecutively with no gaps.  Third, a fetch that fails after
passing source selection, the inclusion filter, resolution and the cache
check (a download or format failure) performed its one download — nothing
was cached for it.  Fourth, re-fetching after any failed fetch behaves
exactly like the first attempt (the download is re-attempted, no cached
failure is returned). -/
theorem image_fetch_failure_isolated (env : FetchEnv) (img : ImgNode) (st : ImageStoreState) :
    ((fetch env img st).1 = none → (fetch env img st).2.1 = st) ∧
    (∀ p st2 d, fetch env img st = (some p, st2, d) →
      st.cache.lookup (resolve_source env (pick_source img)) = none →
      st2.counter = st.counter + 1 ∧
      st2.cache = (resolve_source env (pick_source img), p) :: st.cache ∧
      ∃ e, latex_image_exts.contains e = true ∧ p = image_filename (st.counter + 1) e) ∧
    (∀ st2 d, fetch env img st = (none, st2, d) →
      pick_source img ≠ "" →
      should_include img (pick_source img) = true →
      resolve_source env (pick_source img) ≠ "" →
      d = 1) ∧
    (∀ st2 d, fetch env img st = (none, st2, d) →
      fetch env img st2 = fetch env img st) := by
  have hnone : ∀ st2 d, fetch env img st = (none, st2, d) → st2 = st := by
    intro st2 d h
    rcases fetch_cases env img st with ⟨hf, _⟩ | ⟨hf, _⟩ | ⟨rel, _, hf⟩ | ⟨e, _, _, _, hf⟩ <;>
      rw [hf] at h
    · simp only [Prod.mk.injEq] at h
      exact h.2.1.symm
    · simp only [Prod.mk.injEq] at h
      exact h.2.1.symm
    · simp at h
    · simp at h
  refine ⟨?_, ?_, ?_, ?_⟩
  · intro h
    cases hf : fetch env img st with
    | mk o rest =>
      cases rest with
      | mk s2 d =>
        rw [hf] at h
        simp at h
        subst h
        rw [hnone s2 d hf]
  · intro p st2 d h hfresh
    rcases fetch_fresh_success env img st p st2 d hfresh h with ⟨hd, hrne, hst, e, he, hp⟩
    refine ⟨by rw [hst], ?_, e, he, hp⟩
    rw [hst, hp]
  · intro st2 d h hs hi hr
    rcases fetch_cases env img st with ⟨hf, hc⟩ | ⟨hf, _⟩ | ⟨rel, _, hf⟩ | ⟨e, _, _, _, hf⟩
    · rcases hc with hc | hc | hc
      · exact absurd hc hs
      · rw [hi] at hc
        simp at hc
      · exact absurd hc hr
    · rw [hf] at h
      simp only [Prod.mk.injEq] at h
      exact h.2.2.symm
    · rw [hf] at h
      simp at h
    · rw [hf] at h
      simp at h
  · intro st2 d h
    rw [hnone st2 d h]

/-- Witness for C10: a failed download leaves the empty store empty, and the
first successful write observed earlier is numbered `image-001`. -/
theorem image_fetch_failure_isolated_witness :
    (fetch env_fail img_plain ⟨[], 0⟩).2.1 = (⟨[], 0⟩ : ImageStoreState) ∧
    fetch env_fail img_plain ⟨[], 0⟩ = fetch env_fail img_plain ⟨[], 0⟩ ∧
    (⟨[("http://host/y.png", "elegant-print-assets/image-001.png")], 1⟩ :
      ImageStoreState).counter = 0 + 1 :=
  ⟨(image_fetch_failure_isolated env_fail img_plain ⟨[], 0⟩).1 rfl,
   (image_fetch_failure_isolated env_fail img_plain ⟨[], 0⟩).2.2.2 ⟨[], 0⟩ 1 rfl,
   (((image_fetch_failure_isolated env0 img_plain ⟨[], 0⟩).2.1)
      "elegant-print-assets/image-001.png"
      ⟨[("http://host/y.png", "elegant-print-assets/image-001.png")], 1⟩ 1 rfl rfl).1⟩
